import Mathlib

/-!
# Verification of the pushstate fingerprint store

Shallow embedding of `fileCacher.go` from `tkandal/pushstate`, a change-detection
cache that maps entity identifiers to content fingerprints, tracks a dirty flag,
and persists the table to a single file via a temp-file-plus-rename protocol.

The file holds the data model (`Table`, `FileCache`, `FileState`), the operations
(`IsChanged`, `Put`, `Get`, `Size`, `Read`, `Save`, `Delete`, `Reset`,
`saveToFile`), a fault model for the durable-write path (`WriteFault`), and an
event-trace model of the lock discipline. The external checksum library
(`github.com/tkandal/checksum`, not part of this repository) is abstracted as a
function `sum : String → String` applied to the entity's canonical JSON
serialization.
-/

namespace Pushstate

/-- An entity handed to the cache. `id` models `PushModel.GetID()`; `serial` is
the canonical JSON serialization used for fingerprinting, `none` when
`json.NewEncoder(...).Encode(v)` fails (the error branch of `makeCheckSum`,
fileCacher.go:433-437). The entity is an immutable value, so its serialization
is the same at every use. -/
structure PushModel where
  id : String
  serial : Option String
deriving DecidableEq, Repr

/-- The in-memory fingerprint table, Go's `map[string]string` (field
`stateCache`). Modelled as an association list with at most one binding per
key; the `nil` map and the empty map collapse to `[]` (Go's `getCache`
initializes a `nil` map to empty, which is observationally the identity). -/
abbrev Table := List (String × String)

/-- Go map read `cache[k]`: the bound value, or `""` when the key is absent. -/
def mapGet (t : Table) (k : String) : String := (t.lookup k).getD ""

/-- Go map write `cache[k] = v`: replaces the binding in place, or appends a
new one. -/
def mapPut : Table → String → String → Table
  | [], k, v => [(k, v)]
  | p :: rest, k, v => if p.1 = k then (k, v) :: rest else p :: mapPut rest k v

/-- Go `delete(cache, k)`: removes the binding for `k` if present. -/
def mapDel (t : Table) (k : String) : Table := t.filter (fun p => p.1 != k)

/-- State of the persisted file. `absent` = no file at the path; `empty` = an
existing zero-length file (JSON decode hits `io.EOF`, treated as an empty
table, fileCacher.go:285); `good t` = a file holding the JSON encoding of
table `t`; `corrupt` = an existing file whose contents do not decode. -/
inductive FileState where
  | absent
  | empty
  | good (t : Table)
  | corrupt
deriving DecidableEq, Repr

/-- The `FileCache` struct's mutable state: the table and the dirty flag.
The `filename`, `checkSum` and `log` fields are modelled externally (the file
state is passed explicitly; the checksum is the `sum` parameter; logging has
no observable effect on the contract). -/
structure FileCache where
  stateCache : Table
  isDirty : Bool
deriving DecidableEq, Repr

/-- `NewFileCache` (fileCacher.go:233-242): empty table, clean flag. -/
def NewFileCache : FileCache := ⟨[], false⟩

/-- `getCache` (fileCacher.go:244-252): returns the table, initializing a
`nil` map to empty — the identity in this model. -/
def getCache (fc : FileCache) : Table := fc.stateCache

/-- `makeCheckSum` (fileCacher.go:433-439): JSON-encode the value, returning
`""` on encoding failure, else the checksum of the bytes. `sum` abstracts
`fc.checkSum.SumBytes` from the external checksum library. -/
def makeCheckSum (sum : String → String) (m : PushModel) : String :=
  match m.serial with
  | none => ""
  | some s => sum s

/-- Fault injected into one call of `saveToFile`: which step of the
temp-file-plus-rename protocol fails, if any. `chmodFail` is the post-commit
best-effort `os.Chmod` (fileCacher.go:322-324), which only warns. -/
inductive WriteFault where
  | tempCreateFail
  | encodeFail
  | closeFail
  | renameFail
  | chmodFail
  | ok
deriving DecidableEq, Repr

/-- Whether the injected fault lets the write commit (every step up to and
including the rename succeeds). -/
def writeOk : WriteFault → Bool
  | .ok => true
  | .chmodFail => true
  | _ => false

/-- Outcome of one `saveToFile` call: the returned error (`none` = nil), the
resulting target-file state, and whether a temporary file is left behind. -/
structure SaveFileResult where
  res : Option String
  file : FileState
  tempLeft : Bool
deriving DecidableEq, Repr

/-- `saveToFile` (fileCacher.go:303-328): create a temp file in the target's
directory, JSON-encode the table into it, close it, rename it onto the target.
On encode or close failure the temp file is removed (lines 310-316); on rename
failure it is not (lines 318-320); the target changes only by the rename.
The post-rename `os.Chmod` failure is logged, not returned. -/
def saveToFile (f : WriteFault) (cache : Table) (file : FileState) : SaveFileResult :=
  match f with
  | .tempCreateFail => ⟨some "create temporary file failed", file, false⟩
  | .encodeFail => ⟨some "encode failed", file, false⟩
  | .closeFail => ⟨some "close failed", file, false⟩
  | .renameFail => ⟨some "rename failed", file, true⟩
  | .chmodFail => ⟨none, .good cache, false⟩
  | .ok => ⟨none, .good cache, false⟩

/-- `IsChanged` (fileCacher.go:255-264): true when the stored fingerprint for
the entity's id has length zero (absent key or empty entry), else compares the
stored fingerprint with a freshly computed one. The returned `FileCache` is
the receiver's state after the call (the method only reads it). -/
def IsChanged (sum : String → String) (fc : FileCache) (m : PushModel) :
    Bool × FileCache :=
  if (mapGet (getCache fc) m.id).length == 0 then (true, fc)
  else
    let saved := mapGet (getCache fc) m.id
    let generated := makeCheckSum sum m
    (saved != generated, fc)

/-- `Put` (fileCacher.go:267-273): store the computed fingerprint under the
entity's id and mark the table dirty. No file I/O. -/
def Put (sum : String → String) (fc : FileCache) (m : PushModel) : FileCache :=
  ⟨mapPut (getCache fc) m.id (makeCheckSum sum m), true⟩

/-- `Get` (fileCacher.go:353-358): pure map read. -/
def Get (fc : FileCache) (id : String) : String := mapGet (getCache fc) id

/-- `Size` (fileCacher.go:346-350): number of entries (`len` of the map). -/
def Size (fc : FileCache) : Nat := (getCache fc).length

/-- `readFile` (fileCacher.go:275-289): open with `O_CREATE|O_RDONLY` (an
absent file is created empty), JSON-decode into a fresh map, with `io.EOF`
(empty file) treated as an empty table and any other decode error returned.
Result: returned error, decoded table (`[]` when erroring, Go's `nil`), and
the file state after the call. -/
def readFile (file : FileState) : Option String × Table × FileState :=
  match file with
  | .absent => (none, [], .empty)
  | .empty => (none, [], .empty)
  | .good t => (none, t, .good t)
  | .corrupt => (some "decode state-file failed", [], .corrupt)

/-- Outcome of an operation that may touch the file: resulting store state,
file state, and returned error (`none` = nil). -/
structure OpResult where
  fc : FileCache
  file : FileState
  err : Option String
deriving DecidableEq, Repr

/-- `Read` (fileCacher.go:291-301): load the file into a fresh table and
install it as the in-memory table; on error leave the store untouched. The
dirty flag is not touched on either path. -/
def Read (fc : FileCache) (file : FileState) : OpResult :=
  match readFile file with
  | (none, t, file2) => ⟨{ fc with stateCache := t }, file2, none⟩
  | (some e, _, file2) => ⟨fc, file2, some e⟩

/-- Outcome of `Save`: resulting store state, file state, whether any file
I/O was attempted, and the returned error. -/
structure SaveResult where
  fc : FileCache
  file : FileState
  didWrite : Bool
  err : Option String
deriving DecidableEq, Repr

/-- `Save` (fileCacher.go:331-343): return nil immediately when not dirty
(this check happens before the lock is taken — see the trace model); else run
`saveToFile` and clear the dirty flag only on success. -/
def Save (f : WriteFault) (fc : FileCache) (file : FileState) : SaveResult :=
  if !fc.isDirty then ⟨fc, file, false, none⟩
  else
    let r := saveToFile f (getCache fc) file
    match r.res with
    | none => ⟨{ fc with isDirty := false }, r.file, true, none⟩
    | some e => ⟨fc, r.file, true, some e⟩

/-- `Delete` (fileCacher.go:361-372): remove the binding, set dirty, write the
mutated table durably, and clear dirty only if the write succeeded. -/
def Delete (f : WriteFault) (fc : FileCache) (file : FileState) (id : String) :
    OpResult :=
  let cache1 := mapDel (getCache fc) id
  let r := saveToFile f cache1 file
  match r.res with
  | none => ⟨⟨cache1, false⟩, r.file, none⟩
  | some e => ⟨⟨cache1, true⟩, r.file, some e⟩

/-- `Reset` (fileCacher.go:375-387): set dirty, durably write a fresh empty
table, and only after a successful write install the empty table in memory
and clear dirty; on write failure the in-memory table is left as it was. -/
def Reset (f : WriteFault) (fc : FileCache) (file : FileState) : OpResult :=
  let r := saveToFile f [] file
  match r.res with
  | none => ⟨⟨[], false⟩, r.file, none⟩
  | some e => ⟨⟨fc.stateCache, true⟩, r.file, some e⟩

/-! ## Helper lemmas about the table operations -/

theorem string_length_zero (s : String) : s.length = 0 ↔ s = "" := by
  constructor
  · intro h
    cases s with
    | mk d =>
      have hd : d = [] := List.length_eq_zero.mp h
      subst hd
      rfl
  · intro h
    subst h
    rfl

theorem lookup_mapPut (t : Table) (k v : String) : (mapPut t k v).lookup k = some v := by
  induction t with
  | nil => simp only [mapPut, List.lookup, beq_self_eq_true]
  | cons p rest ih =>
    obtain ⟨a, b⟩ := p
    by_cases h : a = k
    · simp only [mapPut, h, if_pos rfl, List.lookup, beq_self_eq_true]
    · have hke : (k == a) = false := by
        rw [beq_eq_false_iff_ne]
        exact fun hh => h hh.symm
      simp only [mapPut, if_neg h, List.lookup, hke]
      exact ih

theorem length_mapPut_absent (t : Table) (k v : String) (h : t.lookup k = none) :
    (mapPut t k v).length = t.length + 1 := by
  induction t with
  | nil => rfl
  | cons p rest ih =>
    obtain ⟨a, b⟩ := p
    simp only [List.lookup] at h
    cases hke : (k == a) with
    | true => rw [hke] at h; exact absurd h (by simp)
    | false =>
      rw [hke] at h
      have ha : ¬ a = k := fun hh => by
        rw [hh] at hke
        simp at hke
      simp only [mapPut, if_neg ha, List.length_cons, ih h]

theorem mapDel_absent (t : Table) (k : String) (h : t.lookup k = none) :
    mapDel t k = t := by
  induction t with
  | nil => rfl
  | cons p rest ih =>
    obtain ⟨a, b⟩ := p
    simp only [List.lookup] at h
    cases hke : (k == a) with
    | true => rw [hke] at h; exact absurd h (by simp)
    | false =>
      rw [hke] at h
      have ha : (a != k) = true := by
        rw [bne_iff_ne]
        intro hh
        rw [hh] at hke
        simp at hke
      simp only [mapDel, List.filter_cons] at ih ⊢
      simp only [ha, if_pos]
      rw [show List.filter (fun p => p.1 != k) rest = rest from ih h]

/-! ## Claim theorems -/

/-- C1: for every call of the durable write routine `saveToFile` (used by
`Save`, `Delete` and `Reset`): if temp-file creation, encoding or close fails,
the call returns an error, the target file is exactly as before, and for the
encoding and close failures the temporary file has been removed; the rename is
the single commit point — the call succeeds exactly when the rename is
reached and performed, and then (and only then) the target holds the complete
new table. -/
theorem C1_saveToFile_atomic (f : WriteFault) (cache : Table) (file : FileState) :
    saveToFile .tempCreateFail cache file
      = ⟨some "create temporary file failed", file, false⟩ ∧
    saveToFile .encodeFail cache file = ⟨some "encode failed", file, false⟩ ∧
    saveToFile .closeFail cache file = ⟨some "close failed", file, false⟩ ∧
    (saveToFile f cache file).res.isNone = writeOk f ∧
    (saveToFile f cache file).file = (if writeOk f then .good cache else file) := by
  refine ⟨rfl, rfl, rfl, ?_, ?_⟩ <;> cases f <;> rfl

/-- A concrete checksum stand-in used by witnesses: prefixes the serialized
bytes, so digests are never empty and distinct inputs stay distinct. -/
def sumH (s : String) : String := ⟨'h' :: s.data⟩

theorem sumH_ne_empty (s : String) : sumH s ≠ "" := by
  intro h
  have hd := congrArg String.data h
  simp [sumH] at hd

/-- Specification-side change predicate, following the claim's words: an
entity counts as changed when no entry exists for its identifier, or its
fingerprint computation fails, or the computed fingerprint differs from the
stored one. -/
def specChanged (sum : String → String) (fc : FileCache) (m : PushModel) : Prop :=
  fc.stateCache.lookup m.id = none ∨ m.serial = none ∨
    makeCheckSum sum m ≠ mapGet fc.stateCache m.id

/-- C2: `IsChanged` returns true exactly when no entry exists for the
entity's identifier, or the fingerprint computation fails (fail-open), or the
computed fingerprint differs from the stored one; and it leaves the store's
state (table and dirty flag) unchanged. The hypothesis says the external
checksum never produces an empty digest, which holds of any hex-encoded hash. -/
theorem C2_isChanged_spec (sum : String → String) (fc : FileCache) (m : PushModel)
    (hsum : ∀ s, sum s ≠ "") :
    ((IsChanged sum fc m).1 = true ↔ specChanged sum fc m) ∧
    (IsChanged sum fc m).2 = fc := by
  have hsnd : (IsChanged sum fc m).2 = fc := by
    unfold IsChanged
    split <;> rfl
  refine ⟨?_, hsnd⟩
  cases hl : fc.stateCache.lookup m.id with
  | none =>
    have hg : mapGet (getCache fc) m.id = "" := by
      simp [mapGet, getCache, hl]
    have hcode : (IsChanged sum fc m).1 = true := by
      simp [IsChanged, hg]
    rw [hcode]
    exact iff_of_true rfl (Or.inl hl)
  | some w =>
    have hg : mapGet (getCache fc) m.id = w := by
      simp [mapGet, getCache, hl]
    have hg2 : mapGet fc.stateCache m.id = w := hg
    by_cases hw : w = ""
    · subst hw
      have hcode : (IsChanged sum fc m).1 = true := by
        simp [IsChanged, hg]
      rw [hcode]
      refine iff_of_true rfl ?_
      cases hs : m.serial with
      | none => exact Or.inr (Or.inl hs)
      | some s =>
        refine Or.inr (Or.inr ?_)
        rw [hg2]
        simp only [makeCheckSum, hs]
        exact hsum s
    · have hlen : (w.length == 0) = false := by
        rw [beq_eq_false_iff_ne]
        intro h0
        exact hw ((string_length_zero w).mp h0)
      have hcode : (IsChanged sum fc m).1 = (w != makeCheckSum sum m) := by
        simp [IsChanged, hg, hlen]
      rw [hcode]
      cases hs : m.serial with
      | none =>
        have hmcs : makeCheckSum sum m = "" := by
          simp [makeCheckSum, hs]
        rw [hmcs]
        exact iff_of_true (bne_iff_ne.mpr hw) (Or.inr (Or.inl hs))
      | some s =>
        have hmcs : makeCheckSum sum m = sum s := by
          simp [makeCheckSum, hs]
        rw [hmcs]
        constructor
        · intro h
          exact Or.inr (Or.inr (by rw [hmcs, hg2]; exact Ne.symm (bne_iff_ne.mp h)))
        · intro h
          rcases h with h | h | h
          · rw [hl] at h
            exact absurd h (by simp)
          · rw [hs] at h
            exact absurd h (by simp)
          · rw [hmcs, hg2] at h
            exact bne_iff_ne.mpr (Ne.symm h)

/-- C2 witness: a concrete instantiation — a store holding fingerprint
`sumH "v1"` for id `A`, queried with an entity serializing to `v2`. -/
theorem C2_isChanged_spec_witness :
    ((IsChanged sumH ⟨[("A", sumH "v1")], false⟩ ⟨"A", some "v2"⟩).1 = true ↔
      specChanged sumH ⟨[("A", sumH "v1")], false⟩ ⟨"A", some "v2"⟩) ∧
    (IsChanged sumH ⟨[("A", sumH "v1")], false⟩ ⟨"A", some "v2"⟩).2
      = ⟨[("A", sumH "v1")], false⟩ :=
  C2_isChanged_spec sumH ⟨[("A", sumH "v1")], false⟩ ⟨"A", some "v2"⟩
    sumH_ne_empty

/-- C3 counterexample: the claim says `Reset` first empties the in-memory
table and then attempts the durable write, so that on a failed write the
in-memory table has already changed. In the code (fileCacher.go:375-387) the
empty table is written first and installed in memory only after the write
succeeds: injecting an encode failure into `Reset` on a one-entry store
returns an error yet leaves the in-memory table intact, not emptied. -/
theorem C3_reset_counterexample :
    (Reset .encodeFail ⟨[("A", "h1")], false⟩ (.good [("A", "h1")])).err ≠ none ∧
    (Reset .encodeFail ⟨[("A", "h1")], false⟩ (.good [("A", "h1")])).fc.stateCache
      = [("A", "h1")] ∧
    (Reset .encodeFail ⟨[("A", "h1")], false⟩ (.good [("A", "h1")])).fc.stateCache
      ≠ [] := by
  refine ⟨?_, rfl, ?_⟩ <;> decide

/-- C3 (amended): `Delete` first removes the entry from the in-memory table and
then attempts the durable write — on failure it returns an error with the
in-memory removal already effective while the durable file is unchanged, and
delete of an absent identifier is a no-op on the table but still performs the
durable write. `Reset`, by contrast, durably writes a fresh empty table first
and empties the in-memory table only after the write succeeds, so on a failed
write its in-memory table is unchanged (only the dirty flag is left set). -/
theorem C3_delete_reset_persistence (f : WriteFault) (fc : FileCache)
    (file : FileState) (id : String) :
    (Delete f fc file id).fc.stateCache = mapDel fc.stateCache id ∧
    (Delete f fc file id).fc.isDirty = !writeOk f ∧
    (Delete f fc file id).err.isNone = writeOk f ∧
    (Delete f fc file id).file
      = (if writeOk f then .good (mapDel fc.stateCache id) else file) ∧
    (fc.stateCache.lookup id = none → mapDel fc.stateCache id = fc.stateCache) ∧
    (Reset f fc file).fc.stateCache = (if writeOk f then [] else fc.stateCache) ∧
    (Reset f fc file).fc.isDirty = !writeOk f ∧
    (Reset f fc file).err.isNone = writeOk f ∧
    (Reset f fc file).file = (if writeOk f then .good [] else file) := by
  refine ⟨?_, ?_, ?_, ?_, mapDel_absent _ _, ?_, ?_, ?_, ?_⟩ <;> cases f <;> rfl

/-- C3 witness: deleting the absent id `B` from a one-entry store with a
rename failure injected leaves the table as it was. -/
theorem C3_delete_reset_persistence_witness :
    mapDel ([("A", "h1")] : Table) "B" = [("A", "h1")] :=
  (C3_delete_reset_persistence .renameFail ⟨[("A", "h1")], false⟩ .empty
    "B").2.2.2.2.1 (by decide)

/-- C4: the dirty flag is set by every mutating operation (`Put`
unconditionally; `Delete` and `Reset` set it and clear it again exactly when
their durable write succeeds), `Save` clears it exactly when it was dirty and
the durable write succeeds, no operation clears it on a failed write, and the
non-mutating operations leave the store's state alone (`Read` never touches
the flag, `IsChanged` returns the state unchanged; `Get` and `Size` return
plain values, so their read-only nature is expressed by their types). -/
theorem C4_dirty_flag (sum : String → String) (f : WriteFault) (fc : FileCache)
    (file : FileState) (m : PushModel) (id : String) :
    (Put sum fc m).isDirty = true ∧
    (Delete f fc file id).fc.isDirty = !writeOk f ∧
    (Reset f fc file).fc.isDirty = !writeOk f ∧
    (Save f fc file).fc.isDirty = (fc.isDirty && !writeOk f) ∧
    (Read fc file).fc.isDirty = fc.isDirty ∧
    (IsChanged sum fc m).2 = fc := by
  refine ⟨rfl, ?_, ?_, ?_, ?_, ?_⟩
  · cases f <;> rfl
  · cases f <;> rfl
  · obtain ⟨t, d⟩ := fc
    cases d <;> cases f <;> rfl
  · cases file <;> rfl
  · unfold IsChanged
    split <;> rfl

/-- C5: `Save` is idempotent — on a clean store it does no file I/O, changes
nothing and returns nil; after any successful `Save`, an immediately following
`Save` does no file I/O and succeeds (so two saves with no intervening
mutation write at most once); on a dirty store it attempts the durable write
and clears the flag exactly on success. -/
theorem C5_save_idempotent (f g : WriteFault) (fc : FileCache) (file : FileState) :
    (fc.isDirty = false → Save f fc file = ⟨fc, file, false, none⟩) ∧
    ((Save f fc file).err = none →
      Save g (Save f fc file).fc (Save f fc file).file
        = ⟨(Save f fc file).fc, (Save f fc file).file, false, none⟩) ∧
    (fc.isDirty = true →
      (Save f fc file).didWrite = true ∧ (Save f fc file).fc.isDirty = !writeOk f) := by
  obtain ⟨t, d⟩ := fc
  cases d
  · exact ⟨fun _ => rfl, fun _ => rfl, fun h => Bool.noConfusion h⟩
  · refine ⟨fun h => Bool.noConfusion h, ?_, fun _ => ?_⟩
    · cases f
      case tempCreateFail => exact fun h => Option.noConfusion h
      case encodeFail => exact fun h => Option.noConfusion h
      case closeFail => exact fun h => Option.noConfusion h
      case renameFail => exact fun h => Option.noConfusion h
      case chmodFail => exact fun _ => rfl
      case ok => exact fun _ => rfl
    · cases f <;> exact ⟨rfl, rfl⟩

/-- C5 witness: a dirty one-entry store saved twice without faults — the
first save writes and clears the flag, the second is a pure no-op; a clean
store's save is a no-op outright. -/
theorem C5_save_idempotent_witness :
    Save .ok (Save .ok ⟨[("A", "h1")], true⟩ .empty).fc
        (Save .ok ⟨[("A", "h1")], true⟩ .empty).file
      = ⟨(Save .ok ⟨[("A", "h1")], true⟩ .empty).fc,
         (Save .ok ⟨[("A", "h1")], true⟩ .empty).file, false, none⟩ ∧
    (Save .ok ⟨[("A", "h1")], true⟩ .empty).didWrite = true ∧
    Save .ok ⟨[], false⟩ .empty = ⟨⟨[], false⟩, .empty, false, none⟩ :=
  ⟨(C5_save_idempotent .ok .ok ⟨[("A", "h1")], true⟩ .empty).2.1 rfl,
   ((C5_save_idempotent .ok .ok ⟨[("A", "h1")], true⟩ .empty).2.2 rfl).1,
   (C5_save_idempotent .ok .ok ⟨[], false⟩ .empty).1 rfl⟩

/-- C6: `Read` replaces the in-memory table with the decoded file contents;
an absent or empty file yields an empty table with no error (and the open
with `O_CREATE` materializes an empty file); an unparsable file yields an
error with the in-memory table (and dirty flag) left untouched. -/
theorem C6_read_semantics (fc : FileCache) (t : Table) :
    Read fc .absent = ⟨{ fc with stateCache := [] }, .empty, none⟩ ∧
    Read fc .empty = ⟨{ fc with stateCache := [] }, .empty, none⟩ ∧
    Read fc (.good t) = ⟨{ fc with stateCache := t }, .good t, none⟩ ∧
    (Read fc .corrupt).fc = fc ∧
    (Read fc .corrupt).err = some "decode state-file failed" :=
  ⟨rfl, rfl, rfl, rfl, rfl⟩

/-- C7: durability round-trip — after `Put` of an entity and a `Save` that
returns nil, a fresh store constructed over the resulting file reads it
without error and its `Get` of the entity's identifier returns the same
fingerprint as `Get` on the pre-restart store. -/
theorem C7_durability_roundtrip (sum : String → String) (f : WriteFault)
    (fc : FileCache) (file : FileState) (m : PushModel)
    (hs : (Save f (Put sum fc m) file).err = none) :
    (Read NewFileCache (Save f (Put sum fc m) file).file).err = none ∧
    Get (Read NewFileCache (Save f (Put sum fc m) file).file).fc m.id
      = Get (Put sum fc m) m.id := by
  cases f
  case tempCreateFail => exact Option.noConfusion hs
  case encodeFail => exact Option.noConfusion hs
  case closeFail => exact Option.noConfusion hs
  case renameFail => exact Option.noConfusion hs
  case chmodFail => exact ⟨rfl, rfl⟩
  case ok => exact ⟨rfl, rfl⟩

/-- C7 witness: one entity put into a fresh store, saved without faults, and
read back by a second fresh store over the same file. -/
theorem C7_durability_roundtrip_witness :
    (Read NewFileCache
        (Save .ok (Put sumH NewFileCache ⟨"A", some "v1"⟩) .empty).file).err = none ∧
    Get (Read NewFileCache
        (Save .ok (Put sumH NewFileCache ⟨"A", some "v1"⟩) .empty).file).fc "A"
      = Get (Put sumH NewFileCache ⟨"A", some "v1"⟩) "A" :=
  C7_durability_roundtrip sumH .ok NewFileCache .empty ⟨"A", some "v1"⟩ rfl

/-- C8: immediately after `Put` of an entity whose canonical serialization
exists (and is necessarily identical at both calls, entities being immutable
values here), `IsChanged` on that entity returns false; the hypothesis that
the checksum of those bytes is nonempty holds of any hex-encoded digest. -/
theorem C8_put_then_isChanged (sum : String → String) (fc : FileCache)
    (m : PushModel) (s : String) (hs : m.serial = some s) (hsum : sum s ≠ "") :
    (IsChanged sum (Put sum fc m) m).1 = false := by
  have hmcs : makeCheckSum sum m = sum s := by simp [makeCheckSum, hs]
  have hstored : mapGet (getCache (Put sum fc m)) m.id = sum s := by
    simp [Put, getCache, mapGet, lookup_mapPut, hmcs]
  have hlen : ((sum s).length == 0) = false := by
    rw [beq_eq_false_iff_ne]
    intro h0
    exact hsum ((string_length_zero _).mp h0)
  simp only [IsChanged, hstored, hmcs, hlen]
  simp

/-- C8 witness: put then query the same entity on a fresh store. -/
theorem C8_put_then_isChanged_witness :
    (IsChanged sumH (Put sumH NewFileCache ⟨"A", some "v1"⟩) ⟨"A", some "v1"⟩).1
      = false :=
  C8_put_then_isChanged sumH NewFileCache ⟨"A", some "v1"⟩ "v1" rfl (by decide)

/-- C10: when fingerprint computation fails, `Put` stores the empty string
under the entity's identifier; that entry is indistinguishable from an absent
one through `Get` (which also returns `""` for ids never put, e.g. on a fresh
store) and through `IsChanged` (true for any entity with that identifier),
yet `Size` still counts it as an entry. -/
theorem C10_failed_fingerprint (sum : String → String) (fc : FileCache)
    (m m2 : PushModel) (hm : m.serial = none) (h2 : m2.id = m.id)
    (habs : fc.stateCache.lookup m.id = none) :
    (Put sum fc m).stateCache.lookup m.id = some "" ∧
    Get (Put sum fc m) m.id = "" ∧
    Get NewFileCache m.id = "" ∧
    (IsChanged sum (Put sum fc m) m2).1 = true ∧
    Size (Put sum fc m) = Size fc + 1 := by
  have hmcs : makeCheckSum sum m = "" := by simp [makeCheckSum, hm]
  have hlk : (Put sum fc m).stateCache.lookup m.id = some "" := by
    simp [Put, getCache, lookup_mapPut, hmcs]
  refine ⟨hlk, ?_, rfl, ?_, ?_⟩
  · simp [Get, mapGet, getCache, hlk]
  · have hstored : mapGet (getCache (Put sum fc m)) m2.id = "" := by
      rw [h2]
      simp [mapGet, getCache, hlk]
    simp [IsChanged, hstored]
  · simp only [Size, Put, getCache]
    exact length_mapPut_absent _ _ _ habs

/-- C10 witness: an entity with id `A` whose serialization fails, put into a
store holding only id `B`, then queried via a different entity with id `A`. -/
theorem C10_failed_fingerprint_witness :
    (Put sumH ⟨[("B", "x")], false⟩ ⟨"A", none⟩).stateCache.lookup "A" = some "" ∧
    Get (Put sumH ⟨[("B", "x")], false⟩ ⟨"A", none⟩) "A" = "" ∧
    Get NewFileCache "A" = "" ∧
    (IsChanged sumH (Put sumH ⟨[("B", "x")], false⟩ ⟨"A", none⟩) ⟨"A", some "v2"⟩).1
      = true ∧
    Size (Put sumH ⟨[("B", "x")], false⟩ ⟨"A", none⟩)
      = Size ⟨[("B", "x")], false⟩ + 1 :=
  C10_failed_fingerprint sumH ⟨[("B", "x")], false⟩ ⟨"A", none⟩ ⟨"A", some "v2"⟩
    rfl rfl (by decide)

/-! ## Lock discipline

The synchronization of each public method is modelled as the ordered list of
events it performs: taking and releasing `cacheLock`, reading or writing the
table (`stateCache`), reading or writing `isDirty`, and file I/O. The traces
are transcribed from the method bodies of fileCacher.go. -/

/-- One observable step of a public method. -/
inductive Event where
  | lock
  | unlock
  | readState
  | writeState
  | readDirty
  | writeDirty
  | fileAccess
deriving DecidableEq, Repr

/-- A trace is guarded when it takes the lock first, releases it last, and
does everything else strictly between the two — the claim's "acquires the
lock for the operation's full duration and releases it on every exit path". -/
def guarded (tr : List Event) : Bool :=
  match tr with
  | .lock :: rest =>
    match rest.getLast? with
    | some .unlock => !(rest.dropLast.contains .lock) && !(rest.dropLast.contains .unlock)
    | _ => false
  | _ => false

/-- `IsChanged` (fileCacher.go:255-264): lock, read the table (twice: the
length check and the comparison), unlock via defer. -/
def isChangedTrace : List Event := [.lock, .readState, .readState, .unlock]

/-- `Put` (fileCacher.go:267-273): lock, write the table, set dirty, unlock. -/
def putTrace : List Event := [.lock, .writeState, .writeDirty, .unlock]

/-- `Get` (fileCacher.go:353-358): lock, read the table, unlock. -/
def getTrace : List Event := [.lock, .readState, .unlock]

/-- `Size` (fileCacher.go:346-350): lock, read the table, unlock. -/
def sizeTrace : List Event := [.lock, .readState, .unlock]

/-- `Read` (fileCacher.go:291-301): lock, file I/O, and on success install
the decoded table; unlock via defer on both paths. -/
def readOpTrace (ok : Bool) : List Event :=
  if ok then [.lock, .fileAccess, .writeState, .unlock]
  else [.lock, .fileAccess, .unlock]

/-- `Save` (fileCacher.go:331-343): the dirty-flag check on line 332 runs
BEFORE `fc.cacheLock.Lock()` on line 335; when not dirty the method returns
without ever taking the lock. When dirty: lock, read the table, file I/O,
clear dirty on success, unlock via defer. -/
def saveTrace (dirty ok : Bool) : List Event :=
  if dirty then
    .readDirty :: [.lock, .readState, .fileAccess]
      ++ (if ok then [.writeDirty] else []) ++ [.unlock]
  else [.readDirty]

/-- `Delete` (fileCacher.go:361-372): lock, remove from the table, set dirty,
file I/O, clear dirty on success, unlock via defer. -/
def deleteTrace (ok : Bool) : List Event :=
  [.lock, .writeState, .writeDirty, .fileAccess]
    ++ (if ok then [.writeDirty] else []) ++ [.unlock]

/-- `Reset` (fileCacher.go:375-387): lock, set dirty, file I/O, and on
success install the empty table and clear dirty; unlock via defer. -/
def resetTrace (ok : Bool) : List Event :=
  [.lock, .writeDirty, .fileAccess]
    ++ (if ok then [.writeState, .writeDirty] else []) ++ [.unlock]

/-- `Dump` (fileCacher.go:390-415): lock, file I/O, unlock via defer. -/
def dumpTrace : List Event := [.lock, .fileAccess, .unlock]

/-- `WriteTo` (fileCacher.go:417-431): lock, file I/O, unlock via defer. -/
def writeToTrace : List Event := [.lock, .fileAccess, .unlock]

/-- C9 counterexample: `Save` does not hold the lock for its full duration —
on a dirty store its first event is the dirty-flag read, before the lock is
taken, and on a clean store it returns after that read without ever locking,
so neither trace of `Save` is guarded. -/
theorem C9_save_unguarded :
    guarded (saveTrace true true) = false ∧
    guarded (saveTrace true false) = false ∧
    guarded (saveTrace false true) = false ∧
    saveTrace false true = [.readDirty] ∧
    (saveTrace true true).head? = some .readDirty := by
  refine ⟨?_, ?_, ?_, rfl, rfl⟩ <;> rfl

/-- C9 (amended): every public operation except `Save` — `IsChanged`, `Put`,
`Get`, `Size`, `Read`, `Delete`, `Reset`, `Dump`, `WriteTo` — takes the lock
as its first step, releases it as its last step on every exit path, and does
all table, dirty-flag and file accesses strictly in between. `Save` alone
reads the dirty flag before acquiring the lock (returning without ever
locking when the flag is clear); the remainder of a dirty `Save`, from the
lock acquisition on, is well-bracketed on both its exit paths. -/
theorem C9_lock_discipline :
    guarded isChangedTrace = true ∧
    guarded putTrace = true ∧
    guarded getTrace = true ∧
    guarded sizeTrace = true ∧
    guarded (readOpTrace true) = true ∧
    guarded (readOpTrace false) = true ∧
    guarded (deleteTrace true) = true ∧
    guarded (deleteTrace false) = true ∧
    guarded (resetTrace true) = true ∧
    guarded (resetTrace false) = true ∧
    guarded dumpTrace = true ∧
    guarded writeToTrace = true ∧
    saveTrace false true = [.readDirty] ∧
    saveTrace false false = [.readDirty] ∧
    (saveTrace true true).head? = some .readDirty ∧
    (saveTrace true false).head? = some .readDirty ∧
    guarded (saveTrace true true).tail = true ∧
    guarded (saveTrace true false).tail = true := by
  decide

end Pushstate
